import Mathlib

/-!
# Verification of the mcp-gcal OAuth2 identity broker core

A shallow embedding of the broker's credential store and token logic
(`db.go`-style storage layer plus the token-endpoint and bearer-resolver
handlers) together with proofs of its claimed properties.

Modelling conventions:
* SQLite tables are lists of rows; `NULL`-able columns are `Option` fields.
  SQL `WHERE col = ?` never matches a `NULL` column, which `Option.some`
  equality reflects.
* RFC 3339 UTC timestamp strings compare lexicographically exactly in
  chronological order, so timestamps are modelled as `Nat` seconds and
  string comparisons on `expires_at` become `Nat` comparisons.
* `crypto/rand` draws are passed in as explicit arguments; the `UNIQUE`
  constraints of the schema are modelled as explicit checks on insert.
* Machine words inside SHA-256 are `Nat` reduced mod `2 ^ 32`.
-/

/-! ## Crypto primitives: SHA-256, hex, base64url, constant-time compare -/

/-- UTF-8 encoding of a single Unicode code point, as Go produces for `[]byte(s)`. -/
def utf8Encode (c : Nat) : List Nat :=
  if c < 0x80 then [c]
  else if c < 0x800 then [0xC0 ||| (c >>> 6), 0x80 ||| (c &&& 0x3F)]
  else if c < 0x10000 then
    [0xE0 ||| (c >>> 12), 0x80 ||| ((c >>> 6) &&& 0x3F), 0x80 ||| (c &&& 0x3F)]
  else
    [0xF0 ||| (c >>> 18), 0x80 ||| ((c >>> 12) &&& 0x3F),
     0x80 ||| ((c >>> 6) &&& 0x3F), 0x80 ||| (c &&& 0x3F)]

/-- The bytes of a string, as Go's `[]byte(s)` conversion yields them. -/
def strBytes (s : String) : List Nat :=
  (s.data.map (fun ch => utf8Encode ch.toNat)).flatten

/-- 32-bit right rotation. -/
def rotr32 (n x : Nat) : Nat := ((x >>> n) ||| (x <<< (32 - n))) % 4294967296

/-- SHA-256 round constants (FIPS 180-4, in decimal). -/
def sha256K : List Nat :=
  [1116352408, 1899447441, 3049323471, 3921009573, 961987163, 1508970993,
   2453635748, 2870763221, 3624381080, 310598401, 607225278, 1426881987,
   1925078388, 2162078206, 2614888103, 3248222580, 3835390401, 4022224774,
   264347078, 604807628, 770255983, 1249150122, 1555081692, 1996064986,
   2554220882, 2821834349, 2952996808, 3210313671, 3336571891, 3584528711,
   113926993, 338241895, 666307205, 773529912, 1294757372, 1396182291,
   1695183700, 1986661051, 2177026350, 2456956037, 2730485921, 2820302411,
   3259730800, 3345764771, 3516065817, 3600352804, 4094571909, 275423344,
   430227734, 506948616, 659060556, 883997877, 958139571, 1322822218,
   1537002063, 1747873779, 1955562222, 2024104815, 2227730452, 2361852424,
   2428436474, 2756734187, 3204031479, 3329325298]

/-- SHA-256 initial hash state (FIPS 180-4, in decimal). -/
def sha256H0 : List Nat :=
  [1779033703, 3144134277, 1013904242, 2773480762,
   1359893119, 2600822924, 528734635, 1541459225]

def sha256SmallSigma0 (x : Nat) : Nat := (rotr32 7 x) ^^^ (rotr32 18 x) ^^^ (x >>> 3)

def sha256SmallSigma1 (x : Nat) : Nat := (rotr32 17 x) ^^^ (rotr32 19 x) ^^^ (x >>> 10)

def sha256BigSigma0 (x : Nat) : Nat := (rotr32 2 x) ^^^ (rotr32 13 x) ^^^ (rotr32 22 x)

def sha256BigSigma1 (x : Nat) : Nat := (rotr32 6 x) ^^^ (rotr32 11 x) ^^^ (rotr32 25 x)

/-- Extend the (reversed) message schedule by `n` further words. -/
def sha256ExtendRev : Nat → List Nat → List Nat
  | 0, ws => ws
  | n + 1, ws =>
    sha256ExtendRev n
      (((sha256SmallSigma1 (ws.getD 1 0) + ws.getD 6 0 +
         sha256SmallSigma0 (ws.getD 14 0) + ws.getD 15 0) % 4294967296) :: ws)

/-- One round of the SHA-256 compression function; `kw` is the round constant
plus schedule word, the state is `[a, b, c, d, e, f, g, h]`. -/
def sha256Round (st : List Nat) (kw : Nat) : List Nat :=
  match st with
  | [a, b, c, d, e, f, g, h] =>
    let ch := (e &&& f) ^^^ ((e ^^^ 0xFFFFFFFF) &&& g)
    let maj := (a &&& b) ^^^ (a &&& c) ^^^ (b &&& c)
    let t1 := (h + sha256BigSigma1 e + ch + kw) % 4294967296
    let t2 := (sha256BigSigma0 a + maj) % 4294967296
    [(t1 + t2) % 4294967296, a, b, c, (d + t1) % 4294967296, e, f, g]
  | other => other

/-- Big-endian 32-bit words from bytes. -/
def wordsOfBytes : List Nat → List Nat
  | b0 :: b1 :: b2 :: b3 :: rest =>
    (b0 * 16777216 + b1 * 65536 + b2 * 256 + b3) :: wordsOfBytes rest
  | _ => []

/-- Big-endian bytes of a 32-bit word. -/
def wordBytes (w : Nat) : List Nat :=
  [(w >>> 24) % 256, (w >>> 16) % 256, (w >>> 8) % 256, w % 256]

/-- Big-endian 64-bit byte encoding. -/
def be64 (n : Nat) : List Nat :=
  [(n >>> 56) % 256, (n >>> 48) % 256, (n >>> 40) % 256, (n >>> 32) % 256,
   (n >>> 24) % 256, (n >>> 16) % 256, (n >>> 8) % 256, n % 256]

/-- Split a byte list into 64-byte chunks (fuel-based structural recursion so
that the definition reduces by evaluation; the fuel `l.length` always suffices). -/
def chunks64Aux : Nat → List Nat → List (List Nat)
  | _, [] => []
  | 0, l => [l]
  | fuel + 1, x :: xs => (x :: xs.take 63) :: chunks64Aux fuel (xs.drop 63)

def chunks64 (l : List Nat) : List (List Nat) := chunks64Aux l.length l

/-- SHA-256 compression of one 64-byte block into the running state. -/
def sha256Compress (H : List Nat) (block : List Nat) : List Nat :=
  let ws := (sha256ExtendRev 48 (wordsOfBytes block).reverse).reverse
  let kw := List.zipWith (fun k w => (k + w) % 4294967296) sha256K ws
  let st := kw.foldl sha256Round H
  List.zipWith (fun x y => (x + y) % 4294967296) H st

/-- SHA-256 digest (32 bytes) of a byte list. -/
def sha256Bytes (msg : List Nat) : List Nat :=
  let padLen := (64 - ((msg.length + 9) % 64)) % 64
  let padded := msg ++ 0x80 :: (List.replicate padLen 0 ++ be64 (8 * msg.length))
  ((((chunks64 padded).foldl sha256Compress sha256H0).map wordBytes)).flatten

/-- Lowercase hex digit. -/
def hexChar (n : Nat) : Char := if n < 10 then Char.ofNat (48 + n) else Char.ofNat (87 + n)

/-- Lowercase hex encoding of bytes, as Go's `hex.EncodeToString`. -/
def hexEncode (bytes : List Nat) : String :=
  String.mk ((bytes.map (fun b => [hexChar (b / 16), hexChar (b % 16)])).flatten)

/-- The base64url alphabet used by Go's `base64.RawURLEncoding`. -/
def b64Alphabet : List Char :=
  "ABCDEFGHIJKLMNOPQRSTUVWXYZabcdefghijklmnopqrstuvwxyz0123456789-_".data

def b64Char (n : Nat) : Char := b64Alphabet.getD n 'A'

/-- Raw (unpadded) base64url encoding of bytes, as Go's
`base64.RawURLEncoding.EncodeToString`. -/
def b64urlEncode : List Nat → List Char
  | [] => []
  | [b0] => [b64Char (b0 >>> 2), b64Char ((b0 &&& 3) <<< 4)]
  | [b0, b1] =>
    [b64Char (b0 >>> 2), b64Char (((b0 &&& 3) <<< 4) ||| (b1 >>> 4)),
     b64Char ((b1 &&& 15) <<< 2)]
  | b0 :: b1 :: b2 :: rest =>
    b64Char (b0 >>> 2) :: b64Char (((b0 &&& 3) <<< 4) ||| (b1 >>> 4)) ::
    b64Char (((b1 &&& 15) <<< 2) ||| (b2 >>> 6)) :: b64Char (b2 &&& 63) ::
    b64urlEncode rest

/-- Go's `subtle.ConstantTimeCompare` on byte lists: `1` when the inputs have
equal length and identical contents, `0` otherwise. -/
def ctCompare (x y : List Nat) : Nat :=
  if x.length = y.length then
    if (List.zipWith (fun a b => a ^^^ b) x y).foldl (fun a b => a ||| b) 0 = 0 then 1 else 0
  else 0

/-- `hashToken` from the source: hex-encoded SHA-256 of the token string. -/
def hashToken (token : String) : String := hexEncode (sha256Bytes (strBytes token))

/-- The S256 PKCE challenge derived from a verifier, i.e. the spec's
`SHA256_base64url(verifier)`: raw base64url of the SHA-256 digest. -/
def sha256Base64url (verifier : String) : String :=
  String.mk (b64urlEncode (sha256Bytes (strBytes verifier)))

/-- `verifyPKCE` from the source: computes the S256 challenge for the verifier
and compares it to the stored challenge in constant time. -/
def verifyPKCE (codeVerifier codeChallenge : String) : Bool :=
  let computed := String.mk (b64urlEncode (sha256Bytes (strBytes codeVerifier)))
  ctCompare (strBytes computed) (strBytes codeChallenge) == 1

/-! ## Data model

Rows of the `mcp_oauth_sessions`, `mcp_oauth_tokens` and `users` tables.
`auth_code_hash` and `user_email` of a session are `NULL` until the upstream
round-trip resolves, which `Option` captures. -/

/-- A row of `mcp_oauth_sessions` (the source's `MCPAuthSession`). -/
structure MCPAuthSession where
  id : Nat
  state : String
  clientID : String
  redirectURI : String
  codeChallenge : String
  codeChallengeMethod : String
  mcpState : Option String
  authCodeHash : Option String
  userEmail : Option String
  expiresAt : Nat
  used : Bool
deriving DecidableEq, Repr

/-- A row of `mcp_oauth_tokens`: hashed access/refresh token pair. -/
structure MCPTokenRow where
  id : Nat
  clientID : String
  userEmail : String
  accessTokenHash : String
  refreshTokenHash : String
  expiresAt : Nat
deriving DecidableEq, Repr

/-- A row of `users` (the source's `User`): legacy API-key subject record. -/
structure User where
  id : Nat
  email : String
  apiKeyHash : String
  tokenJSON : String
deriving DecidableEq, Repr

/-- The credential store: the broker-relevant tables of the SQLite database.
`nextTokenID` models the `AUTOINCREMENT` id of `mcp_oauth_tokens`. -/
structure Store where
  sessions : List MCPAuthSession
  tokens : List MCPTokenRow
  users : List User
  nextTokenID : Nat
deriving DecidableEq, Repr

/-- `mcpAccessTokenExpiration` from the source (`1 * time.Hour`), in seconds. -/
def mcpAccessTokenExpiration : Nat := 3600

/-- `mcpAuthSessionExpiration` from the source (`10 * time.Minute`), in seconds. -/
def mcpAuthSessionExpiration : Nat := 600

/-- The token-retention grace window of `CleanupExpiredMCPData`
(`7 * 24 * time.Hour`), in seconds. -/
def mcpTokenRetention : Nat := 7 * 24 * 3600

instance {ε α : Type} [DecidableEq ε] [DecidableEq α] : DecidableEq (Except ε α) := fun a b =>
  match a, b with
  | .ok x, .ok y =>
    if h : x = y then isTrue (by rw [h]) else isFalse (by simp [h])
  | .error e, .error f =>
    if h : e = f then isTrue (by rw [h]) else isFalse (by simp [h])
  | .ok _, .error _ => isFalse (by simp)
  | .error _, .ok _ => isFalse (by simp)

/-! ## Store operations (from `db.go`) -/

/-- `SetAuthSessionCode`: `UPDATE mcp_oauth_sessions SET auth_code_hash = ?,
user_email = ? WHERE state = ?`, failing with "session not found for state"
when no row was affected.  The update itself is unconditional on the session's
phase: it checks neither `used`, nor a previously stored code hash, nor
expiry.  A violation of the schema's `UNIQUE(auth_code_hash)` surfaces as a
database error before the row count is inspected. -/
def SetAuthSessionCode (st : Store) (state authCodeHash userEmail : String) :
    Except String Store :=
  let hit := fun (s : MCPAuthSession) => s.state == state
  if 0 < st.sessions.countP hit ∧
      (st.sessions.any (fun s => !hit s && s.authCodeHash == some authCodeHash) ∨
        1 < st.sessions.countP hit) then
    .error "UNIQUE constraint failed: mcp_oauth_sessions.auth_code_hash"
  else if st.sessions.countP hit = 0 then
    .error "session not found for state"
  else
    .ok { st with
      sessions := st.sessions.map (fun s =>
        if hit s then { s with authCodeHash := some authCodeHash, userEmail := some userEmail }
        else s) }

/-- The row filter of `ConsumeAuthCode`'s conditional update:
`auth_code_hash = ? AND used = 0 AND expires_at > now`. -/
def consumeCond (authCodeHash : String) (now : Nat) (s : MCPAuthSession) : Bool :=
  s.authCodeHash == some authCodeHash && !s.used && decide (now < s.expiresAt)

/-- `ConsumeAuthCode`: atomically marks the session with the given code hash
used (`UPDATE ... SET used = 1 WHERE auth_code_hash = ? AND used = 0 AND
expires_at > ?`).  When zero rows were affected, a secondary read classifies
the failure into invalid / already used / expired; otherwise the consumed
session is fetched and returned with `Used = true`. -/
def ConsumeAuthCode (st : Store) (authCodeHash : String) (now : Nat) :
    Except String (MCPAuthSession × Store) :=
  if st.sessions.countP (consumeCond authCodeHash now) = 0 then
    match st.sessions.find? (fun s => s.authCodeHash == some authCodeHash) with
    | none => .error "invalid authorization code"
    | some s =>
      if s.used then .error "authorization code already used"
      else .error "authorization code expired"
  else
    match (st.sessions.map (fun s =>
        if consumeCond authCodeHash now s then { s with used := true } else s)).find?
          (fun s => s.authCodeHash == some authCodeHash) with
    | none => .error "fetch consumed session: not found"
    | some s =>
      .ok ({ s with used := true },
        { st with sessions := st.sessions.map (fun s =>
            if consumeCond authCodeHash now s then { s with used := true } else s) })

/-- `CreateMCPToken`: draws two fresh random tokens (passed in explicitly
here), stores their hashes with an expiry `now + mcpAccessTokenExpiration`,
and returns the raw values.  The schema's `UNIQUE` hash columns make the
insert fail on a hash collision with an existing row. -/
def CreateMCPToken (st : Store) (clientID userEmail accessToken refreshToken : String)
    (now : Nat) : Except String (String × String × Store) :=
  let aH := hashToken accessToken
  let rH := hashToken refreshToken
  if st.tokens.any (fun q => q.accessTokenHash == aH || q.refreshTokenHash == rH) then
    .error "insert mcp token: UNIQUE constraint failed"
  else
    .ok (accessToken, refreshToken,
      { st with
        tokens := st.tokens ++
          [{ id := st.nextTokenID, clientID := clientID, userEmail := userEmail,
             accessTokenHash := aH, refreshTokenHash := rH,
             expiresAt := now + mcpAccessTokenExpiration }],
        nextTokenID := st.nextTokenID + 1 })

/-- `ValidateMCPAccessToken`: hashes the bearer token, looks the hash up, and
returns the bound user email unless the pair is absent or past expiry.
Read-only: the store is not changed (the function does not return one). -/
def ValidateMCPAccessToken (st : Store) (token : String) (now : Nat) :
    Except String String :=
  let h := hashToken token
  match st.tokens.find? (fun q => q.accessTokenHash == h) with
  | none => .error "invalid access token"
  | some q =>
    if q.expiresAt < now then .error "access token expired"
    else .ok q.userEmail

/-- `RefreshMCPToken`: looks up the refresh-token hash, rejects a client
mismatch, deletes the old pair and issues a new one via `CreateMCPToken`
(with the fresh random draws passed in explicitly). -/
def RefreshMCPToken (st : Store) (refreshToken clientID genAccess genRefresh : String)
    (now : Nat) : Except String (String × String × Store) :=
  let h := hashToken refreshToken
  match st.tokens.find? (fun q => q.refreshTokenHash == h) with
  | none => .error "invalid refresh token"
  | some q =>
    if q.clientID ≠ clientID then .error "client_id mismatch"
    else
      let st' := { st with tokens := st.tokens.filter (fun t => t.id ≠ q.id) }
      CreateMCPToken st' clientID q.userEmail genAccess genRefresh now

/-- `CleanupExpiredMCPData` (sweep): deletes sessions as soon as they expire
(`expires_at < now`) but deletes token pairs only once they are seven days
past access-token expiry (`expires_at < now - 7*24h`). -/
def CleanupExpiredMCPData (st : Store) (now : Nat) : Store :=
  { st with
    sessions := st.sessions.filter (fun s => !decide (s.expiresAt < now)),
    tokens := st.tokens.filter (fun t => !decide (t.expiresAt < now - mcpTokenRetention)) }

/-- `GetUserByAPIKey`: legacy credential lookup by SHA-256 hash. -/
def GetUserByAPIKey (st : Store) (apiKey : String) : Option User :=
  let h := hashToken apiKey
  st.users.find? (fun u => u.apiKeyHash == h)

/-! ## HTTP-layer logic (from `oauth.go` and `http.go`) -/

/-- Outcome of the token endpoint: either a token response body or an
RFC 6749 error object with its HTTP status. -/
inductive TokenResult where
  | success (accessToken refreshToken : String) (expiresIn : Nat)
  | oauthErr (status : Nat) (errorCode description : String)
deriving DecidableEq, Repr

/-- `handleAuthorizationCodeGrant`: validates presence of `code`,
`code_verifier` and `client_id`, consumes the authorization code, then — only
after the consume succeeded — checks `client_id`, `redirect_uri` and PKCE
against the session, and finally issues a token pair.  The store returned is
the one the handler leaves behind (the consume's write persists even when a
later check fails). -/
def handleAuthorizationCodeGrant (st : Store)
    (code codeVerifier clientID redirectURI genAccess genRefresh : String)
    (now : Nat) : TokenResult × Store :=
  if code = "" ∨ codeVerifier = "" ∨ clientID = "" then
    (.oauthErr 400 "invalid_request" "code, code_verifier, and client_id are required", st)
  else
    match ConsumeAuthCode st (hashToken code) now with
    | .error e => (.oauthErr 400 "invalid_grant" e, st)
    | .ok (session, st1) =>
      if session.clientID ≠ clientID then
        (.oauthErr 400 "invalid_grant" "client_id mismatch", st1)
      else if session.redirectURI ≠ redirectURI then
        (.oauthErr 400 "invalid_grant" "redirect_uri mismatch", st1)
      else if !verifyPKCE codeVerifier session.codeChallenge then
        (.oauthErr 400 "invalid_grant" "PKCE verification failed", st1)
      else
        match CreateMCPToken st1 clientID (session.userEmail.getD "") genAccess genRefresh now with
        | .error _ => (.oauthErr 500 "server_error" "failed to create token", st1)
        | .ok (a, r, st2) => (.success a r mcpAccessTokenExpiration, st2)

/-- The authentication decision of `handleMCP`, given the already extracted
bearer string: broker-issued access-token validation first, then the legacy
API-key lookup, and a failure response that does not depend on which branch
rejected the credential.  (The storage-failure branch of the legacy lookup
cannot occur in this pure model.) -/
def resolveBearer (st : Store) (token : String) (now : Nat) :
    Except (Nat × String) String :=
  if token = "" then .error (401, "missing Authorization header")
  else
    match ValidateMCPAccessToken st token now with
    | .ok userEmail =>
      if userEmail ≠ "" then .ok userEmail
      else
        match GetUserByAPIKey st token with
        | some u => .ok u.email
        | none => .error (401, "invalid credentials")
    | .error _ =>
      match GetUserByAPIKey st token with
      | some u => .ok u.email
      | none => .error (401, "invalid credentials")

/-! ## General-purpose lemmas -/

theorem char_toNat_inj {a b : Char} (h : a.toNat = b.toNat) : a = b := by
  apply Char.eq_of_val_eq
  apply UInt32.eq_of_toBitVec_eq
  exact BitVec.eq_of_toNat_eq h

theorem list_find?_eq_some_unique {α : Type} {p : α → Bool} {l : List α} {v : α}
    (hex : ∃ x, x ∈ l ∧ p x = true) (hall : ∀ x, x ∈ l → p x = true → x = v) :
    l.find? p = some v := by
  induction l with
  | nil =>
    obtain ⟨x, hx, _⟩ := hex
    cases hx
  | cons a t ih =>
    by_cases hpa : p a = true
    · rw [List.find?_cons_of_pos t hpa, hall a (List.mem_cons_self a t) hpa]
    · rw [List.find?_cons_of_neg t hpa]
      obtain ⟨x, hx, hpx⟩ := hex
      have hxt : x ∈ t := by
        rcases List.mem_cons.mp hx with h1 | h1
        · exact absurd (h1 ▸ hpx) hpa
        · exact h1
      exact ih ⟨x, hxt, hpx⟩ (fun y hy hpy => hall y (List.mem_cons_of_mem a hy) hpy)

theorem nat_lor_eq_zero {a c : Nat} (h : a ||| c = 0) : a = 0 ∧ c = 0 := by
  have hbit : ∀ i, a.testBit i = false ∧ c.testBit i = false := by
    intro i
    have h2 : (a ||| c).testBit i = false := by rw [h]; exact Nat.zero_testBit i
    rw [Nat.testBit_lor] at h2
    exact ⟨by cases hval : a.testBit i <;> simp [hval] at h2 ⊢,
           by cases hval : c.testBit i <;> simp [hval] at h2 ⊢⟩
  exact ⟨Nat.zero_of_testBit_eq_false (fun i => (hbit i).1),
         Nat.zero_of_testBit_eq_false (fun i => (hbit i).2)⟩

theorem foldl_lor_eq_zero_iff :
    ∀ (l : List Nat) (a : Nat), l.foldl (fun x y => x ||| y) a = 0 ↔ a = 0 ∧ ∀ b ∈ l, b = 0 := by
  intro l
  induction l with
  | nil => intro a; simp
  | cons c t ih =>
    intro a
    rw [List.foldl_cons, ih (a ||| c)]
    constructor
    · rintro ⟨h1, h2⟩
      obtain ⟨ha, hc⟩ := nat_lor_eq_zero h1
      exact ⟨ha, by
        intro b hb
        rcases List.mem_cons.mp hb with h3 | h3
        · exact h3 ▸ hc
        · exact h2 b h3⟩
    · rintro ⟨ha, hb⟩
      refine ⟨?_, fun b h3 => hb b (List.mem_cons_of_mem c h3)⟩
      rw [ha, hb c (List.mem_cons_self c t)]
      rfl

theorem eq_of_zipWith_xor_zero :
    ∀ (x y : List Nat), x.length = y.length →
      (∀ b ∈ List.zipWith (fun a b => a ^^^ b) x y, b = 0) → x = y := by
  intro x
  induction x with
  | nil =>
    intro y hl _
    cases y with
    | nil => rfl
    | cons b u => simp at hl
  | cons a t ih =>
    intro y hl hz
    cases y with
    | nil => simp at hl
    | cons b u =>
      simp only [List.zipWith_cons_cons, List.mem_cons] at hz
      have h1 : a = b := Nat.xor_eq_zero.mp (hz (a ^^^ b) (Or.inl rfl))
      have h2 : t = u := by
        apply ih u (by simpa using hl)
        intro v hv
        exact hz v (Or.inr hv)
      rw [h1, h2]

theorem ctCompare_eq_one_iff (x y : List Nat) : ctCompare x y = 1 ↔ x = y := by
  unfold ctCompare
  by_cases hl : x.length = y.length
  · rw [if_pos hl]
    by_cases hz : (List.zipWith (fun a b => a ^^^ b) x y).foldl (fun a b => a ||| b) 0 = 0
    · rw [if_pos hz]
      simp only [true_iff]
      exact eq_of_zipWith_xor_zero x y hl
        (fun b hb => ((foldl_lor_eq_zero_iff _ 0).mp hz).2 b hb)
    · rw [if_neg hz]
      constructor
      · intro h0
        exact absurd h0 (by decide)
      · intro heq
        exfalso
        apply hz
        subst heq
        rw [List.zipWith_same]
        rw [foldl_lor_eq_zero_iff]
        refine ⟨rfl, ?_⟩
        intro b hb
        obtain ⟨v, _, hv⟩ := List.mem_map.mp hb
        rw [Nat.xor_self] at hv
        exact hv.symm
  · rw [if_neg hl]
    constructor
    · intro h0
      exact absurd h0 (by decide)
    · intro heq
      exact absurd (by rw [heq]) hl

/-! ## ASCII injectivity of `strBytes`, and the base64url range -/

theorem b64Char_toNat_lt (n : Nat) : (b64Char n).toNat < 128 := by
  by_cases h : n < 64
  · interval_cases n <;> decide
  · unfold b64Char
    rw [List.getD_eq_default]
    · decide
    · have : b64Alphabet.length = 64 := by decide
      omega

theorem b64urlEncode_ascii : ∀ (l : List Nat), ∀ ch ∈ b64urlEncode l, ch.toNat < 128 := by
  intro l
  induction l using b64urlEncode.induct with
  | case1 =>
    intro ch hch
    simp [b64urlEncode] at hch
  | case2 b0 =>
    intro ch hch
    simp only [b64urlEncode, List.mem_cons, List.not_mem_nil, or_false] at hch
    rcases hch with h | h <;> (rw [h]; exact b64Char_toNat_lt _)
  | case3 b0 b1 =>
    intro ch hch
    simp only [b64urlEncode, List.mem_cons, List.not_mem_nil, or_false] at hch
    rcases hch with h | h | h <;> (rw [h]; exact b64Char_toNat_lt _)
  | case4 b0 b1 b2 rest ih =>
    intro ch hch
    simp only [b64urlEncode, List.mem_cons] at hch
    rcases hch with h | h | h | h | h
    · rw [h]; exact b64Char_toNat_lt _
    · rw [h]; exact b64Char_toNat_lt _
    · rw [h]; exact b64Char_toNat_lt _
    · rw [h]; exact b64Char_toNat_lt _
    · exact ih ch h

theorem utf8Encode_ascii {c : Nat} (h : c < 128) : utf8Encode c = [c] := by
  unfold utf8Encode
  rw [if_pos h]

theorem lor_high {x y : Nat} (hx : x.testBit 7 = true) : 128 ≤ x ||| y := by
  by_contra hlt
  push_neg at hlt
  have h2 : (x ||| y).testBit 7 = false := Nat.testBit_eq_false_of_lt (by norm_num; omega)
  rw [Nat.testBit_lor, hx] at h2
  simp at h2

theorem utf8Encode_head_high {c : Nat} (h : 128 ≤ c) :
    ∃ b l, utf8Encode c = b :: l ∧ 128 ≤ b := by
  unfold utf8Encode
  rw [if_neg (by omega)]
  by_cases h2 : c < 0x800
  · rw [if_pos h2]
    exact ⟨_, _, rfl, lor_high (by decide)⟩
  · rw [if_neg h2]
    by_cases h3 : c < 0x10000
    · rw [if_pos h3]
      exact ⟨_, _, rfl, lor_high (by decide)⟩
    · rw [if_neg h3]
      exact ⟨_, _, rfl, lor_high (by decide)⟩

theorem utf8Encode_ne_nil (c : Nat) : utf8Encode c ≠ [] := by
  unfold utf8Encode
  by_cases h1 : c < 0x80
  · simp [h1]
  · by_cases h2 : c < 0x800
    · simp [h1, h2]
    · by_cases h3 : c < 0x10000 <;> simp [h1, h2, h3]

theorem charsBytes_ascii_inj :
    ∀ (la lb : List Char), (∀ ch ∈ la, ch.toNat < 128) →
      (la.map (fun ch => utf8Encode ch.toNat)).flatten =
        (lb.map (fun ch => utf8Encode ch.toNat)).flatten →
      la = lb := by
  intro la
  induction la with
  | nil =>
    intro lb _ h
    cases lb with
    | nil => rfl
    | cons d u =>
      exfalso
      simp only [List.map_nil, List.flatten_nil, List.map_cons, List.flatten_cons] at h
      obtain ⟨h1, _⟩ := List.append_eq_nil.mp h.symm
      exact utf8Encode_ne_nil d.toNat h1
  | cons c t ih =>
    intro lb hascii h
    have hc : c.toNat < 128 := hascii c (List.mem_cons_self c t)
    cases lb with
    | nil =>
      exfalso
      simp only [List.map_nil, List.flatten_nil, List.map_cons, List.flatten_cons] at h
      obtain ⟨h1, _⟩ := List.append_eq_nil.mp h
      exact utf8Encode_ne_nil c.toNat h1
    | cons d u =>
      simp only [List.map_cons, List.flatten_cons] at h
      rw [utf8Encode_ascii hc] at h
      by_cases hd : d.toNat < 128
      · rw [utf8Encode_ascii hd] at h
        simp only [List.singleton_append, List.cons.injEq] at h
        obtain ⟨h1, h2⟩ := h
        rw [char_toNat_inj h1,
            ih u (fun ch hch => hascii ch (List.mem_cons_of_mem c hch)) h2]
      · exfalso
        obtain ⟨b, lrest, hb, hhigh⟩ := utf8Encode_head_high (Nat.le_of_not_lt hd)
        rw [hb] at h
        simp only [List.singleton_append, List.cons_append, List.cons.injEq] at h
        omega

theorem strBytes_inj_ascii {a b : String} (ha : ∀ ch ∈ a.data, ch.toNat < 128)
    (h : strBytes a = strBytes b) : a = b := by
  cases a with
  | mk la =>
    cases b with
    | mk lb =>
      unfold strBytes at h
      have : la = lb := charsBytes_ascii_inj la lb ha h
      rw [this]

/-! ## C3: PKCE verification -/

/-- C3: `verifyPKCE v c` returns `true` exactly when `c` is the unpadded
base64url encoding of `SHA-256(v)`.  Hence every pair
`(v, sha256Base64url v)` verifies, and any challenge that differs from that
value — for instance one computed from a mutated verifier — is rejected.
`verifyPKCE` is a pure function: it takes and returns only values, so it has
no side effects by construction. -/
theorem verifyPKCE_iff_sha256Base64url (v c : String) :
    verifyPKCE v c = true ↔ c = sha256Base64url v := by
  unfold verifyPKCE sha256Base64url
  rw [beq_iff_eq, ctCompare_eq_one_iff]
  constructor
  · intro h
    have hascii : ∀ ch ∈ (String.mk (b64urlEncode (sha256Bytes (strBytes v)))).data,
        ch.toNat < 128 := by
      intro ch hch
      exact b64urlEncode_ascii _ ch hch
    exact (strBytes_inj_ascii hascii h).symm
  · intro h
    rw [h]

theorem verifyPKCE_rfc7636_vector :
    verifyPKCE "dBjftJeZ4CVP-mB92K27uhbUJU1p1r_wW1gFWFOEjXk"
      "E9Melhoa2OwvFrEMTJguCHaoeK1t8URWbuGJSstw-cM" = true := by decide

theorem hashToken_sha256_vector :
    hashToken "abc" = "ba7816bf8f01cfea414140de5dae2223b00361a396177a9cb410ff61f20015ad" := by
  decide

/-! ## ConsumeAuthCode lemmas -/

theorem consumeCond_true {h : String} {now : Nat} {s : MCPAuthSession}
    (hhash : s.authCodeHash = some h) (hunused : s.used = false)
    (hfresh : now < s.expiresAt) : consumeCond h now s = true := by
  simp [consumeCond, hhash, hunused, hfresh]

theorem mark_preserves_authCodeHash (h : String) (now : Nat) (s : MCPAuthSession) :
    (if consumeCond h now s then { s with used := true } else s).authCodeHash =
      s.authCodeHash := by
  by_cases hc : consumeCond h now s = true <;> simp [hc]

/-- Successful conditional consume: with exactly one session carrying the code
hash (the schema's `UNIQUE(auth_code_hash)`), `ConsumeAuthCode` marks it used
and returns it. -/
theorem ConsumeAuthCode_ok (st : Store) (h : String) (now : Nat) (s0 : MCPAuthSession)
    (hmem : s0 ∈ st.sessions) (hhash : s0.authCodeHash = some h)
    (hunused : s0.used = false) (hfresh : now < s0.expiresAt)
    (huniq : ∀ s1 ∈ st.sessions, s1.authCodeHash = some h → s1 = s0) :
    ConsumeAuthCode st h now =
      .ok ({ s0 with used := true },
        { st with sessions := st.sessions.map (fun s =>
            if consumeCond h now s then { s with used := true } else s) }) := by
  have hcond : consumeCond h now s0 = true := consumeCond_true hhash hunused hfresh
  have hpos : 0 < st.sessions.countP (consumeCond h now) :=
    List.countP_pos_iff.mpr ⟨s0, hmem, hcond⟩
  have hfind : (st.sessions.map (fun s =>
      if consumeCond h now s then { s with used := true } else s)).find?
        (fun s => s.authCodeHash == some h) = some { s0 with used := true } := by
    apply list_find?_eq_some_unique
    · refine ⟨{ s0 with used := true }, ?_, by simp [hhash]⟩
      have h2 : ({ s0 with used := true } : MCPAuthSession) =
          (fun s => if consumeCond h now s then { s with used := true } else s) s0 := by
        simp [hcond]
      rw [h2]
      exact List.mem_map_of_mem _ hmem
    · intro x hx hpx
      obtain ⟨y, hy, hfy⟩ := List.mem_map.mp hx
      have hxy : x.authCodeHash = y.authCodeHash := by
        rw [← hfy]
        exact mark_preserves_authCodeHash h now y
      have hyhash : y.authCodeHash = some h := by
        rw [← hxy]
        exact beq_iff_eq.mp hpx
      have hys : y = s0 := huniq y hy hyhash
      rw [← hfy, hys, if_pos hcond]
  unfold ConsumeAuthCode
  rw [if_neg (by omega)]
  simp only [hfind]

/-- When every session carrying the code hash is already used (and at least
one is), `ConsumeAuthCode` reports the already-used error — at any time. -/
theorem ConsumeAuthCode_already_used (st : Store) (h : String) (now : Nat)
    (hex : ∃ s ∈ st.sessions, s.authCodeHash = some h)
    (hall : ∀ s ∈ st.sessions, s.authCodeHash = some h → s.used = true) :
    ConsumeAuthCode st h now = .error "authorization code already used" := by
  have hcount : st.sessions.countP (consumeCond h now) = 0 := by
    rw [List.countP_eq_zero]
    intro s hs hc
    simp only [consumeCond, Bool.and_eq_true, beq_iff_eq, Bool.not_eq_true'] at hc
    exact absurd (hall s hs hc.1.1) (by rw [hc.1.2]; exact Bool.false_ne_true)
  unfold ConsumeAuthCode
  rw [if_pos hcount]
  obtain ⟨s, hs, hhash⟩ := hex
  cases hfind : st.sessions.find? (fun s => s.authCodeHash == some h) with
  | none =>
    rw [List.find?_eq_none] at hfind
    exact absurd (by simp [hhash]) (hfind s hs)
  | some s1 =>
    have hp := List.find?_some hfind
    have hmem := List.mem_of_find?_eq_some hfind
    have hused : s1.used = true := hall s1 hmem (beq_iff_eq.mp hp)
    simp [hused]

/-- Inversion of a successful consume: the store after it contains a session
with the code hash, all sessions with that hash are marked used, and the
returned session carries the hash, marked used. -/
theorem ConsumeAuthCode_ok_inv (st : Store) (h : String) (now : Nat)
    (s : MCPAuthSession) (st1 : Store)
    (huniq : ∀ q ∈ st.sessions, ∀ q' ∈ st.sessions,
      q.authCodeHash = some h → q'.authCodeHash = some h → q = q')
    (hok : ConsumeAuthCode st h now = .ok (s, st1)) :
    (∃ q ∈ st1.sessions, q.authCodeHash = some h) ∧
      (∀ q ∈ st1.sessions, q.authCodeHash = some h → q.used = true) := by
  unfold ConsumeAuthCode at hok
  by_cases hc : st.sessions.countP (consumeCond h now) = 0
  · rw [if_pos hc] at hok
    split at hok
    · exact Except.noConfusion hok
    · split at hok <;> exact Except.noConfusion hok
  · rw [if_neg hc] at hok
    obtain ⟨z, hz, hcz⟩ := List.countP_pos_iff.mp (Nat.pos_of_ne_zero hc)
    have hzhash : z.authCodeHash = some h := by
      simp only [consumeCond, Bool.and_eq_true, beq_iff_eq] at hcz
      exact hcz.1.1
    split at hok
    · exact Except.noConfusion hok
    · rename_i s1 hfind
      have hs1 : s1.authCodeHash = some h := by
        have := List.find?_some hfind
        simpa using this
      have hok2 := Except.ok.inj hok
      have hst1 : st1 = { st with sessions := st.sessions.map (fun q =>
          if consumeCond h now q then { q with used := true } else q) } :=
        (congrArg Prod.snd hok2).symm
      constructor
      · refine ⟨{ z with used := true }, ?_, by simp [hzhash]⟩
        rw [hst1]
        have h2 : ({ z with used := true } : MCPAuthSession) =
            (fun q => if consumeCond h now q then { q with used := true } else q) z := by
          simp [hcz]
        rw [h2]
        exact List.mem_map_of_mem _ hz
      · intro q hq hqhash
        rw [hst1] at hq
        obtain ⟨y, hy, hfy⟩ := List.mem_map.mp hq
        have hyhash : y.authCodeHash = some h := by
          rw [← mark_preserves_authCodeHash h now y, hfy, hqhash]
        have hyz : y = z := huniq y hy z hz hyhash hzhash
        have hcy : consumeCond h now y = true := hyz ▸ hcz
        rw [← hfy, if_pos hcy]

/-! ## C1 and C10: one-time codes -/

/-- C1: for a session holding the code hash, unused and unexpired, the first
`ConsumeAuthCode` succeeds, marks the session used and returns its data; every
subsequent call with the same code hash (at any time) fails with the
already-used error, so no second token pair can be minted from the code.  The
uniqueness hypothesis is the schema's `UNIQUE(auth_code_hash)` constraint. -/
theorem consume_auth_code_single_use (st : Store) (h : String) (now : Nat)
    (s0 : MCPAuthSession)
    (hmem : s0 ∈ st.sessions) (hhash : s0.authCodeHash = some h)
    (hunused : s0.used = false) (hfresh : now < s0.expiresAt)
    (huniq : ∀ s1 ∈ st.sessions, s1.authCodeHash = some h → s1 = s0) :
    ∃ st1, ConsumeAuthCode st h now = .ok ({ s0 with used := true }, st1) ∧
      ∀ now2, ConsumeAuthCode st1 h now2 = .error "authorization code already used" := by
  refine ⟨_, ConsumeAuthCode_ok st h now s0 hmem hhash hunused hfresh huniq, ?_⟩
  intro now2
  have hcond := consumeCond_true hhash hunused hfresh
  apply ConsumeAuthCode_already_used
  · refine ⟨{ s0 with used := true }, ?_, by simp [hhash]⟩
    have h2 : ({ s0 with used := true } : MCPAuthSession) =
        (fun s => if consumeCond h now s then { s with used := true } else s) s0 := by
      simp [hcond]
    rw [h2]
    exact List.mem_map_of_mem _ hmem
  · intro s hs hsh
    obtain ⟨y, hy, hfy⟩ := List.mem_map.mp hs
    have hyhash : y.authCodeHash = some h := by
      rw [← mark_preserves_authCodeHash h now y, hfy, hsh]
    have hys := huniq y hy hyhash
    have hs0 : s = { s0 with used := true } := by
      rw [← hfy, hys]
      simp [hcond]
    rw [hs0]

/-- Witness for C1 at a concrete store with one resolved, unused session. -/
theorem consume_auth_code_single_use_witness :
    ∃ st1,
      ConsumeAuthCode
        { sessions := [{ id := 1, state := "gstate", clientID := "client-1",
                         redirectURI := "https://app.example/cb", codeChallenge := "challenge",
                         codeChallengeMethod := "S256", mcpState := some "mstate",
                         authCodeHash := some "codehash", userEmail := some "alice@example.com",
                         expiresAt := 600, used := false }],
          tokens := [], users := [], nextTokenID := 1 } "codehash" 100 =
        .ok ({ id := 1, state := "gstate", clientID := "client-1",
               redirectURI := "https://app.example/cb", codeChallenge := "challenge",
               codeChallengeMethod := "S256", mcpState := some "mstate",
               authCodeHash := some "codehash", userEmail := some "alice@example.com",
               expiresAt := 600, used := true }, st1) ∧
        ∀ now2, ConsumeAuthCode st1 "codehash" now2 =
          .error "authorization code already used" := by
  exact consume_auth_code_single_use
    { sessions := [{ id := 1, state := "gstate", clientID := "client-1",
                     redirectURI := "https://app.example/cb", codeChallenge := "challenge",
                     codeChallengeMethod := "S256", mcpState := some "mstate",
                     authCodeHash := some "codehash", userEmail := some "alice@example.com",
                     expiresAt := 600, used := false }],
      tokens := [], users := [], nextTokenID := 1 } "codehash" 100
    { id := 1, state := "gstate", clientID := "client-1",
      redirectURI := "https://app.example/cb", codeChallenge := "challenge",
      codeChallengeMethod := "S256", mcpState := some "mstate",
      authCodeHash := some "codehash", userEmail := some "alice@example.com",
      expiresAt := 600, used := false }
    (by decide) (by decide) (by decide) (by decide) (by decide)

/-- C10: a session still in the `CREATED` phase has no stored code hash, and
`ConsumeAuthCode` selects rows by code hash only, so when no session carries a
given hash, redemption fails with the invalid-code error (and, returning an
error, writes nothing); conversely any successful redemption returns a session
that carries the presented code hash — i.e. one that passed through
resolution — marked used. -/
theorem consume_requires_resolution (st : Store) (h : String) (now : Nat)
    (hnone : ∀ s ∈ st.sessions, s.authCodeHash ≠ some h) :
    ConsumeAuthCode st h now = .error "invalid authorization code" ∧
    ∀ (st2 : Store) (h2 : String) (now2 : Nat) (s : MCPAuthSession) (stOut : Store),
      ConsumeAuthCode st2 h2 now2 = .ok (s, stOut) →
        s.authCodeHash = some h2 ∧ s.used = true := by
  constructor
  · have hcount : st.sessions.countP (consumeCond h now) = 0 := by
      rw [List.countP_eq_zero]
      intro s hs hc
      simp only [consumeCond, Bool.and_eq_true, beq_iff_eq] at hc
      exact hnone s hs hc.1.1
    have hfind : st.sessions.find? (fun s => s.authCodeHash == some h) = none := by
      rw [List.find?_eq_none]
      intro s hs
      simp [hnone s hs]
    unfold ConsumeAuthCode
    rw [if_pos hcount, hfind]
  · intro st2 h2 now2 s stOut hok
    unfold ConsumeAuthCode at hok
    by_cases hc : st2.sessions.countP (consumeCond h2 now2) = 0
    · rw [if_pos hc] at hok
      split at hok
      · exact Except.noConfusion hok
      · split at hok <;> exact Except.noConfusion hok
    · rw [if_neg hc] at hok
      split at hok
      · exact Except.noConfusion hok
      · rename_i s1 hfind
        have hs1 : s1.authCodeHash = some h2 := by
          have := List.find?_some hfind
          simpa using this
        have hinj := Except.ok.inj hok
        have hseq : s = { s1 with used := true } := (congrArg Prod.fst hinj).symm
        rw [hseq]
        exact ⟨hs1, rfl⟩

/-- Witness for C10 at a store holding only a `CREATED` session (no code hash). -/
theorem consume_requires_resolution_witness :
    ConsumeAuthCode
      { sessions := [{ id := 1, state := "gstate", clientID := "client-1",
                       redirectURI := "https://app.example/cb", codeChallenge := "challenge",
                       codeChallengeMethod := "S256", mcpState := some "mstate",
                       authCodeHash := none, userEmail := none,
                       expiresAt := 600, used := false }],
        tokens := [], users := [], nextTokenID := 1 } "somecodehash" 100 =
      .error "invalid authorization code" ∧
    ∀ (st2 : Store) (h2 : String) (now2 : Nat) (s : MCPAuthSession) (stOut : Store),
      ConsumeAuthCode st2 h2 now2 = .ok (s, stOut) →
        s.authCodeHash = some h2 ∧ s.used = true := by
  refine consume_requires_resolution _ "somecodehash" 100 ?_
  decide

/-! ## Token issuer lemmas -/

/-- Successful insert: with fresh hashes the new pair is appended. -/
theorem CreateMCPToken_ok (st : Store) (cid email a r : String) (now : Nat)
    (hfA : ∀ q ∈ st.tokens, q.accessTokenHash ≠ hashToken a)
    (hfR : ∀ q ∈ st.tokens, q.refreshTokenHash ≠ hashToken r) :
    CreateMCPToken st cid email a r now =
      .ok (a, r, { st with
        tokens := st.tokens ++
          [{ id := st.nextTokenID, clientID := cid, userEmail := email,
             accessTokenHash := hashToken a, refreshTokenHash := hashToken r,
             expiresAt := now + mcpAccessTokenExpiration }],
        nextTokenID := st.nextTokenID + 1 }) := by
  have hnc : ¬(st.tokens.any (fun q =>
      q.accessTokenHash == hashToken a || q.refreshTokenHash == hashToken r) = true) := by
    rw [List.any_eq_true]
    rintro ⟨q, hq, hpq⟩
    simp only [Bool.or_eq_true, beq_iff_eq] at hpq
    rcases hpq with hh | hh
    · exact hfA q hq hh
    · exact hfR q hq hh
  unfold CreateMCPToken
  rw [if_neg hnc]

/-- Lookup of a stored, unexpired access token returns its user. -/
theorem ValidateMCPAccessToken_ok (st : Store) (p : MCPTokenRow) (a : String) (now : Nat)
    (hp : p ∈ st.tokens) (hpa : p.accessTokenHash = hashToken a)
    (huniqA : ∀ q ∈ st.tokens, q.accessTokenHash = hashToken a → q = p)
    (hnow : ¬p.expiresAt < now) :
    ValidateMCPAccessToken st a now = .ok p.userEmail := by
  have hfind : st.tokens.find? (fun q => q.accessTokenHash == hashToken a) = some p :=
    list_find?_eq_some_unique ⟨p, hp, by simp [hpa]⟩
      (fun x hx hpx => huniqA x hx (by simpa using hpx))
  unfold ValidateMCPAccessToken
  simp only [hfind]
  rw [if_neg hnow]

/-- Lookup of a stored but expired access token reports expiry. -/
theorem ValidateMCPAccessToken_expired (st : Store) (p : MCPTokenRow) (a : String) (now : Nat)
    (hp : p ∈ st.tokens) (hpa : p.accessTokenHash = hashToken a)
    (huniqA : ∀ q ∈ st.tokens, q.accessTokenHash = hashToken a → q = p)
    (hnow : p.expiresAt < now) :
    ValidateMCPAccessToken st a now = .error "access token expired" := by
  have hfind : st.tokens.find? (fun q => q.accessTokenHash == hashToken a) = some p :=
    list_find?_eq_some_unique ⟨p, hp, by simp [hpa]⟩
      (fun x hx hpx => huniqA x hx (by simpa using hpx))
  unfold ValidateMCPAccessToken
  simp only [hfind]
  rw [if_pos hnow]

/-- Lookup of an absent access-token hash reports an invalid token. -/
theorem ValidateMCPAccessToken_invalid (st : Store) (a : String) (now : Nat)
    (habs : ∀ q ∈ st.tokens, q.accessTokenHash ≠ hashToken a) :
    ValidateMCPAccessToken st a now = .error "invalid access token" := by
  have hfind : st.tokens.find? (fun q => q.accessTokenHash == hashToken a) = none :=
    List.find?_eq_none.mpr (fun q hq => by simp [habs q hq])
  unfold ValidateMCPAccessToken
  simp only [hfind]

/-- Successful rotation: the old pair is deleted and a fresh pair inserted. -/
theorem RefreshMCPToken_ok (st : Store) (p : MCPTokenRow) (r cid gA gR : String) (now : Nat)
    (hp : p ∈ st.tokens) (hph : p.refreshTokenHash = hashToken r)
    (huniq : ∀ q ∈ st.tokens, q.refreshTokenHash = hashToken r → q = p)
    (hcid : p.clientID = cid)
    (hfA : ∀ q ∈ st.tokens, q.accessTokenHash ≠ hashToken gA)
    (hfR : ∀ q ∈ st.tokens, q.refreshTokenHash ≠ hashToken gR) :
    RefreshMCPToken st r cid gA gR now =
      .ok (gA, gR, { st with
        tokens := (st.tokens.filter (fun t => t.id ≠ p.id)) ++
          [{ id := st.nextTokenID, clientID := cid, userEmail := p.userEmail,
             accessTokenHash := hashToken gA, refreshTokenHash := hashToken gR,
             expiresAt := now + mcpAccessTokenExpiration }],
        nextTokenID := st.nextTokenID + 1 }) := by
  have hfind : st.tokens.find? (fun q => q.refreshTokenHash == hashToken r) = some p :=
    list_find?_eq_some_unique ⟨p, hp, by simp [hph]⟩
      (fun x hx hpx => huniq x hx (by simpa using hpx))
  unfold RefreshMCPToken
  simp only [hfind]
  rw [if_neg (by simp [hcid])]
  exact CreateMCPToken_ok { st with tokens := st.tokens.filter (fun t => t.id ≠ p.id) }
    cid p.userEmail gA gR now
    (fun q hq => hfA q (List.mem_of_mem_filter hq))
    (fun q hq => hfR q (List.mem_of_mem_filter hq))

/-- Rotation with an unknown refresh-token hash fails as invalid. -/
theorem RefreshMCPToken_invalid (st : Store) (r cid gA gR : String) (now : Nat)
    (habs : ∀ q ∈ st.tokens, q.refreshTokenHash ≠ hashToken r) :
    RefreshMCPToken st r cid gA gR now = .error "invalid refresh token" := by
  have hfind : st.tokens.find? (fun q => q.refreshTokenHash == hashToken r) = none :=
    List.find?_eq_none.mpr (fun q hq => by simp [habs q hq])
  unfold RefreshMCPToken
  simp only [hfind]

/-- Rotation by a non-owning client fails before any write. -/
theorem RefreshMCPToken_mismatch (st : Store) (p : MCPTokenRow) (r cid gA gR : String)
    (now : Nat)
    (hp : p ∈ st.tokens) (hph : p.refreshTokenHash = hashToken r)
    (huniq : ∀ q ∈ st.tokens, q.refreshTokenHash = hashToken r → q = p)
    (hcid : p.clientID ≠ cid) :
    RefreshMCPToken st r cid gA gR now = .error "client_id mismatch" := by
  have hfind : st.tokens.find? (fun q => q.refreshTokenHash == hashToken r) = some p :=
    list_find?_eq_some_unique ⟨p, hp, by simp [hph]⟩
      (fun x hx hpx => huniq x hx (by simpa using hpx))
  unfold RefreshMCPToken
  simp only [hfind]
  rw [if_pos hcid]

/-! ## C2, C8, C9: token rotation and validation -/

/-- C2: refresh tokens are single-use under rotation.  A first rotation with
the owning client succeeds and returns the fresh pair; afterwards the old
refresh token is unknown to the store (its pair, access token included, was
deleted), so a second rotation with it fails as invalid for every caller; and
rotating with the newly returned refresh token succeeds.  The freshness
hypotheses say the random draws do not collide with stored hashes — exactly
what the schema's `UNIQUE` hash columns enforce on insert. -/
theorem rotate_single_use (st : Store) (p : MCPTokenRow)
    (r1 gA gR gA2 gR2 : String) (now now2 : Nat)
    (hp : p ∈ st.tokens) (hph : p.refreshTokenHash = hashToken r1)
    (huniq : ∀ q ∈ st.tokens, q.refreshTokenHash = hashToken r1 → q = p)
    (hfA : ∀ q ∈ st.tokens, q.accessTokenHash ≠ hashToken gA)
    (hfR : ∀ q ∈ st.tokens, q.refreshTokenHash ≠ hashToken gR)
    (hfA2 : ∀ q ∈ st.tokens, q.accessTokenHash ≠ hashToken gA2)
    (hfR2 : ∀ q ∈ st.tokens, q.refreshTokenHash ≠ hashToken gR2)
    (hAA : hashToken gA2 ≠ hashToken gA)
    (hRR : hashToken gR2 ≠ hashToken gR) :
    ∃ st1, RefreshMCPToken st r1 p.clientID gA gR now = .ok (gA, gR, st1) ∧
      (∀ cid2 gA3 gR3 now3,
        RefreshMCPToken st1 r1 cid2 gA3 gR3 now3 = .error "invalid refresh token") ∧
      ∃ st2, RefreshMCPToken st1 gR p.clientID gA2 gR2 now2 = .ok (gA2, gR2, st2) := by
  refine ⟨_, RefreshMCPToken_ok st p r1 p.clientID gA gR now hp hph huniq rfl hfA hfR, ?_, ?_⟩
  · intro cid2 gA3 gR3 now3
    apply RefreshMCPToken_invalid
    intro q hq
    rcases List.mem_append.mp hq with hq1 | hq1
    · obtain ⟨hq2, hq3⟩ := List.mem_filter.mp hq1
      intro hqh
      have := huniq q hq2 hqh
      rw [this] at hq3
      simp at hq3
    · rw [List.mem_singleton.mp hq1]
      intro hqh
      have h2 : hashToken gR = hashToken r1 := hqh
      exact hfR p hp (hph.trans h2.symm)
  · refine ⟨_, RefreshMCPToken_ok _
      { id := st.nextTokenID, clientID := p.clientID, userEmail := p.userEmail,
        accessTokenHash := hashToken gA, refreshTokenHash := hashToken gR,
        expiresAt := now + mcpAccessTokenExpiration }
      gR p.clientID gA2 gR2 now2 ?_ rfl ?_ rfl ?_ ?_⟩
    · exact List.mem_append.mpr (Or.inr (List.mem_singleton.mpr rfl))
    · intro q hq hqh
      rcases List.mem_append.mp hq with hq1 | hq1
      · exact absurd hqh (hfR q (List.mem_of_mem_filter hq1))
      · exact List.mem_singleton.mp hq1
    · intro q hq
      rcases List.mem_append.mp hq with hq1 | hq1
      · exact hfA2 q (List.mem_of_mem_filter hq1)
      · rw [List.mem_singleton.mp hq1]
        exact fun hcontra => hAA hcontra.symm
    · intro q hq
      rcases List.mem_append.mp hq with hq1 | hq1
      · exact hfR2 q (List.mem_of_mem_filter hq1)
      · rw [List.mem_singleton.mp hq1]
        exact fun hcontra => hRR hcontra.symm

/-- C8: round-trip of issuance and validation.  `CreateMCPToken` (issue)
returns the raw pair; validating the returned access token before its expiry
yields exactly the subject passed to issue; validating it past expiry fails
with the expired error; and validating any string whose hash is absent fails
with the invalid error.  `ValidateMCPAccessToken` only reads: by its type it
returns no store, so it cannot mutate stored state. -/
theorem issue_validate_roundtrip (st : Store) (cid email a r : String) (now : Nat)
    (hfA : ∀ q ∈ st.tokens, q.accessTokenHash ≠ hashToken a)
    (hfR : ∀ q ∈ st.tokens, q.refreshTokenHash ≠ hashToken r) :
    ∃ st1, CreateMCPToken st cid email a r now = .ok (a, r, st1) ∧
      (∀ now2, now2 ≤ now + mcpAccessTokenExpiration →
        ValidateMCPAccessToken st1 a now2 = .ok email) ∧
      (∀ now3, now + mcpAccessTokenExpiration < now3 →
        ValidateMCPAccessToken st1 a now3 = .error "access token expired") ∧
      (∀ t now4, (∀ q ∈ st1.tokens, q.accessTokenHash ≠ hashToken t) →
        ValidateMCPAccessToken st1 t now4 = .error "invalid access token") := by
  refine ⟨_, CreateMCPToken_ok st cid email a r now hfA hfR, ?_, ?_, ?_⟩
  · intro now2 hle
    exact ValidateMCPAccessToken_ok _
      { id := st.nextTokenID, clientID := cid, userEmail := email,
        accessTokenHash := hashToken a, refreshTokenHash := hashToken r,
        expiresAt := now + mcpAccessTokenExpiration } a now2
      (List.mem_append.mpr (Or.inr (List.mem_singleton.mpr rfl))) rfl
      (by
        intro q hq hqh
        rcases List.mem_append.mp hq with hq1 | hq1
        · exact absurd hqh (hfA q hq1)
        · exact List.mem_singleton.mp hq1)
      (by
        show ¬now + mcpAccessTokenExpiration < now2
        omega)
  · intro now3 hgt
    exact ValidateMCPAccessToken_expired _
      { id := st.nextTokenID, clientID := cid, userEmail := email,
        accessTokenHash := hashToken a, refreshTokenHash := hashToken r,
        expiresAt := now + mcpAccessTokenExpiration } a now3
      (List.mem_append.mpr (Or.inr (List.mem_singleton.mpr rfl))) rfl
      (by
        intro q hq hqh
        rcases List.mem_append.mp hq with hq1 | hq1
        · exact absurd hqh (hfA q hq1)
        · exact List.mem_singleton.mp hq1)
      hgt
  · intro t now4 habs
    exact ValidateMCPAccessToken_invalid _ t now4 habs

/-- C9: rotation is atomic on client mismatch.  Presenting a stored pair's
refresh token with a different `client_id` fails with the client-mismatch
error before any write; the unchanged store still rotates that same refresh
token for the owning client, and the pair's access token still validates up
to its normal expiry. -/
theorem rotate_client_mismatch_atomic (st : Store) (p : MCPTokenRow)
    (r badCid gA gR : String) (now now2 : Nat)
    (hp : p ∈ st.tokens) (hph : p.refreshTokenHash = hashToken r)
    (huniq : ∀ q ∈ st.tokens, q.refreshTokenHash = hashToken r → q = p)
    (huniqA : ∀ q ∈ st.tokens, q.accessTokenHash = p.accessTokenHash → q = p)
    (hbad : badCid ≠ p.clientID)
    (hfA : ∀ q ∈ st.tokens, q.accessTokenHash ≠ hashToken gA)
    (hfR : ∀ q ∈ st.tokens, q.refreshTokenHash ≠ hashToken gR) :
    RefreshMCPToken st r badCid gA gR now = .error "client_id mismatch" ∧
    (∃ st2, RefreshMCPToken st r p.clientID gA gR now2 = .ok (gA, gR, st2)) ∧
    (∀ a now3, hashToken a = p.accessTokenHash → ¬p.expiresAt < now3 →
      ValidateMCPAccessToken st a now3 = .ok p.userEmail) := by
  refine ⟨?_, ⟨_, RefreshMCPToken_ok st p r p.clientID gA gR now2 hp hph huniq rfl hfA hfR⟩, ?_⟩
  · exact RefreshMCPToken_mismatch st p r badCid gA gR now hp hph huniq
      (fun h => hbad h.symm)
  · intro a now3 hpa hnow
    exact ValidateMCPAccessToken_ok st p a now3 hp hpa.symm
      (fun q hq hqh => huniqA q hq (hqh.trans hpa.symm.symm)) hnow

/-! ## C6: garbage collection -/

/-- C6: the sweep deletes exactly the sessions whose expiry is in the past,
while token pairs survive for the seven-day grace window past access-token
expiry and are deleted only once it has elapsed; consequently a refresh of a
pair whose access token expired within the window still succeeds after the
sweep (rotation never consults `expires_at`). -/
theorem sweep_spec (st : Store) (now : Nat) (p : MCPTokenRow) (r cid gA gR : String)
    (hp : p ∈ st.tokens) (hph : p.refreshTokenHash = hashToken r)
    (huniq : ∀ q ∈ st.tokens, q.refreshTokenHash = hashToken r → q = p)
    (hcid : p.clientID = cid)
    (hwin : now ≤ p.expiresAt + mcpTokenRetention)
    (hfA : ∀ q ∈ st.tokens, q.accessTokenHash ≠ hashToken gA)
    (hfR : ∀ q ∈ st.tokens, q.refreshTokenHash ≠ hashToken gR) :
    (∀ s, s ∈ (CleanupExpiredMCPData st now).sessions ↔
      s ∈ st.sessions ∧ now ≤ s.expiresAt) ∧
    (∀ t, t ∈ (CleanupExpiredMCPData st now).tokens ↔
      t ∈ st.tokens ∧ now - mcpTokenRetention ≤ t.expiresAt) ∧
    ∃ st2, RefreshMCPToken (CleanupExpiredMCPData st now) r cid gA gR now =
      .ok (gA, gR, st2) := by
  refine ⟨?_, ?_, ?_⟩
  · intro s
    simp [CleanupExpiredMCPData, List.mem_filter, Nat.not_lt]
  · intro t
    simp [CleanupExpiredMCPData, List.mem_filter, Nat.not_lt]
  · have hpmem : p ∈ (CleanupExpiredMCPData st now).tokens := by
      simp only [CleanupExpiredMCPData, List.mem_filter]
      refine ⟨hp, ?_⟩
      simp only [Bool.not_eq_eq_eq_not, Bool.not_true, decide_eq_false_iff_not, Nat.not_lt]
      have : mcpTokenRetention = 604800 := rfl
      omega
    refine ⟨_, RefreshMCPToken_ok _ p r cid gA gR now hpmem hph ?_ hcid ?_ ?_⟩
    · intro q hq
      exact huniq q (List.mem_of_mem_filter hq)
    · intro q hq
      exact hfA q (List.mem_of_mem_filter hq)
    · intro q hq
      exact hfR q (List.mem_of_mem_filter hq)

/-- Witness for C2 at a store holding one token pair. -/
theorem rotate_single_use_witness :
    ∃ st1,
      RefreshMCPToken
        { sessions := [],
          tokens := [{ id := 1, clientID := "client-1",
                       userEmail := "alice@example.com", accessTokenHash := hashToken "a1",
                       refreshTokenHash := hashToken "r1", expiresAt := 1000 }],
          users := [], nextTokenID := 2 } "r1" "client-1" "a2" "r2" 1000 =
        .ok ("a2", "r2", st1) ∧
      (∀ cid2 gA3 gR3 now3,
        RefreshMCPToken st1 "r1" cid2 gA3 gR3 now3 = .error "invalid refresh token") ∧
      ∃ st2, RefreshMCPToken st1 "r2" "client-1" "a3" "r3" 2000 = .ok ("a3", "r3", st2) := by
  exact rotate_single_use
    { sessions := [],
      tokens := [{ id := 1, clientID := "client-1",
                   userEmail := "alice@example.com", accessTokenHash := hashToken "a1",
                   refreshTokenHash := hashToken "r1", expiresAt := 1000 }],
      users := [], nextTokenID := 2 }
    { id := 1, clientID := "client-1", userEmail := "alice@example.com",
      accessTokenHash := hashToken "a1", refreshTokenHash := hashToken "r1",
      expiresAt := 1000 }
    "r1" "a2" "r2" "a3" "r3" 1000 2000
    (by decide) rfl (by decide) (by decide) (by decide) (by decide) (by decide)
    (by decide) (by decide)

/-- Witness for C8 at the empty store. -/
theorem issue_validate_roundtrip_witness :
    ∃ st1,
      CreateMCPToken { sessions := [], tokens := [], users := [], nextTokenID := 1 }
        "client-1" "alice@example.com" "access-1" "refresh-1" 1000 =
        .ok ("access-1", "refresh-1", st1) ∧
      (∀ now2, now2 ≤ 1000 + mcpAccessTokenExpiration →
        ValidateMCPAccessToken st1 "access-1" now2 = .ok "alice@example.com") ∧
      (∀ now3, 1000 + mcpAccessTokenExpiration < now3 →
        ValidateMCPAccessToken st1 "access-1" now3 = .error "access token expired") ∧
      (∀ t now4, (∀ q ∈ st1.tokens, q.accessTokenHash ≠ hashToken t) →
        ValidateMCPAccessToken st1 t now4 = .error "invalid access token") := by
  exact issue_validate_roundtrip
    { sessions := [], tokens := [], users := [], nextTokenID := 1 }
    "client-1" "alice@example.com" "access-1" "refresh-1" 1000
    (by simp) (by simp)

/-- Witness for C9 at a store holding one token pair owned by another client. -/
theorem rotate_client_mismatch_atomic_witness :
    RefreshMCPToken
      { sessions := [],
        tokens := [{ id := 1, clientID := "client-1",
                     userEmail := "alice@example.com", accessTokenHash := hashToken "a1",
                     refreshTokenHash := hashToken "r1", expiresAt := 5000 }],
        users := [], nextTokenID := 2 } "r1" "client-2" "a2" "r2" 100 =
      .error "client_id mismatch" ∧
    (∃ st2,
      RefreshMCPToken
        { sessions := [],
          tokens := [{ id := 1, clientID := "client-1",
                       userEmail := "alice@example.com", accessTokenHash := hashToken "a1",
                       refreshTokenHash := hashToken "r1", expiresAt := 5000 }],
          users := [], nextTokenID := 2 } "r1" "client-1" "a2" "r2" 200 =
        .ok ("a2", "r2", st2)) ∧
    (∀ a now3, hashToken a = hashToken "a1" → ¬(5000 : Nat) < now3 →
      ValidateMCPAccessToken
        { sessions := [],
          tokens := [{ id := 1, clientID := "client-1",
                       userEmail := "alice@example.com", accessTokenHash := hashToken "a1",
                       refreshTokenHash := hashToken "r1", expiresAt := 5000 }],
          users := [], nextTokenID := 2 } a now3 = .ok "alice@example.com") := by
  exact rotate_client_mismatch_atomic
    { sessions := [],
      tokens := [{ id := 1, clientID := "client-1",
                   userEmail := "alice@example.com", accessTokenHash := hashToken "a1",
                   refreshTokenHash := hashToken "r1", expiresAt := 5000 }],
      users := [], nextTokenID := 2 }
    { id := 1, clientID := "client-1", userEmail := "alice@example.com",
      accessTokenHash := hashToken "a1", refreshTokenHash := hashToken "r1",
      expiresAt := 5000 }
    "r1" "client-2" "a2" "r2" 100 200
    (by decide) rfl (by decide) (by decide) (by decide) (by decide) (by decide)

/-- Witness for C6: a pair whose access token expired 1000 seconds ago (well
within the seven-day window) survives the sweep and still refreshes. -/
theorem sweep_spec_witness :
    (∀ s, s ∈ (CleanupExpiredMCPData
      { sessions := [],
        tokens := [{ id := 1, clientID := "client-1",
                     userEmail := "alice@example.com", accessTokenHash := hashToken "a1",
                     refreshTokenHash := hashToken "r1", expiresAt := 1000 }],
        users := [], nextTokenID := 2 } 2000).sessions ↔
      s ∈ ([] : List MCPAuthSession) ∧ 2000 ≤ s.expiresAt) ∧
    (∀ t, t ∈ (CleanupExpiredMCPData
      { sessions := [],
        tokens := [{ id := 1, clientID := "client-1",
                     userEmail := "alice@example.com", accessTokenHash := hashToken "a1",
                     refreshTokenHash := hashToken "r1", expiresAt := 1000 }],
        users := [], nextTokenID := 2 } 2000).tokens ↔
      t ∈ [({ id := 1, clientID := "client-1",
              userEmail := "alice@example.com", accessTokenHash := hashToken "a1",
              refreshTokenHash := hashToken "r1", expiresAt := 1000 } : MCPTokenRow)] ∧
        2000 - mcpTokenRetention ≤ t.expiresAt) ∧
    ∃ st2, RefreshMCPToken (CleanupExpiredMCPData
      { sessions := [],
        tokens := [{ id := 1, clientID := "client-1",
                     userEmail := "alice@example.com", accessTokenHash := hashToken "a1",
                     refreshTokenHash := hashToken "r1", expiresAt := 1000 }],
        users := [], nextTokenID := 2 } 2000) "r1" "client-1" "a2" "r2" 2000 =
      .ok ("a2", "r2", st2) := by
  exact sweep_spec
    { sessions := [],
      tokens := [{ id := 1, clientID := "client-1",
                   userEmail := "alice@example.com", accessTokenHash := hashToken "a1",
                   refreshTokenHash := hashToken "r1", expiresAt := 1000 }],
      users := [], nextTokenID := 2 } 2000
    { id := 1, clientID := "client-1", userEmail := "alice@example.com",
      accessTokenHash := hashToken "a1", refreshTokenHash := hashToken "r1",
      expiresAt := 1000 }
    "r1" "client-1" "a2" "r2"
    (by decide) rfl (by decide) rfl (by decide) (by decide) (by decide)

/-! ## C4: the authorization-code grant consumes before checking -/

/-- When the consume fails, the grant handler returns its error as
`invalid_grant` and the store is untouched; the `client_id`, `redirect_uri`
and PKCE checks are never reached. -/
theorem handleGrant_eq_consume_error (st : Store)
    (code cv cid ruri gA gR : String) (now : Nat) (e : String)
    (hne : ¬(code = "" ∨ cv = "" ∨ cid = ""))
    (hcons : ConsumeAuthCode st (hashToken code) now = .error e) :
    handleAuthorizationCodeGrant st code cv cid ruri gA gR now =
      (.oauthErr 400 "invalid_grant" e, st) := by
  unfold handleAuthorizationCodeGrant
  rw [if_neg hne, hcons]

/-- When the consume succeeds, the grant handler continues with the
`client_id`, `redirect_uri` and PKCE checks on the consumed store. -/
theorem handleGrant_eq_consume_ok (st : Store)
    (code cv cid ruri gA gR : String) (now : Nat) (s : MCPAuthSession) (st1 : Store)
    (hne : ¬(code = "" ∨ cv = "" ∨ cid = ""))
    (hcons : ConsumeAuthCode st (hashToken code) now = .ok (s, st1)) :
    handleAuthorizationCodeGrant st code cv cid ruri gA gR now =
      (if s.clientID ≠ cid then (.oauthErr 400 "invalid_grant" "client_id mismatch", st1)
       else if s.redirectURI ≠ ruri then
         (.oauthErr 400 "invalid_grant" "redirect_uri mismatch", st1)
       else if !verifyPKCE cv s.codeChallenge then
         (.oauthErr 400 "invalid_grant" "PKCE verification failed", st1)
       else
         match CreateMCPToken st1 cid (s.userEmail.getD "") gA gR now with
         | .error _ => (.oauthErr 500 "server_error" "failed to create token", st1)
         | .ok (a, r, st2) => (.success a r mcpAccessTokenExpiration, st2)) := by
  unfold handleAuthorizationCodeGrant
  rw [if_neg hne, hcons]

/-- C4: in the authorization-code grant the `client_id`, `redirect_uri` and
PKCE checks run only after the conditional consume succeeded; a mismatch in
any of them yields an `invalid_grant` error while the handler leaves behind
the consumed store, in which the session remains used — so a retry with the
same code, even with corrected parameters, fails as already used. -/
theorem grant_mismatch_consumes (st : Store)
    (code codeVerifier clientID redirectURI genA genR : String) (now : Nat)
    (s : MCPAuthSession) (st1 : Store)
    (hc : code ≠ "") (hv : codeVerifier ≠ "") (hcid : clientID ≠ "")
    (huniq : ∀ q ∈ st.sessions, ∀ q' ∈ st.sessions,
      q.authCodeHash = some (hashToken code) → q'.authCodeHash = some (hashToken code) →
        q = q')
    (hcons : ConsumeAuthCode st (hashToken code) now = .ok (s, st1))
    (hmis : s.clientID ≠ clientID ∨ s.redirectURI ≠ redirectURI ∨
      verifyPKCE codeVerifier s.codeChallenge = false) :
    (∃ desc, handleAuthorizationCodeGrant st code codeVerifier clientID redirectURI
        genA genR now = (.oauthErr 400 "invalid_grant" desc, st1)) ∧
    (∃ q ∈ st1.sessions, q.authCodeHash = some (hashToken code) ∧ q.used = true) ∧
    (∀ cv2 cid2 ru2 gA2 gR2 now2, cv2 ≠ "" → cid2 ≠ "" →
      (handleAuthorizationCodeGrant st1 code cv2 cid2 ru2 gA2 gR2 now2).1 =
        .oauthErr 400 "invalid_grant" "authorization code already used") := by
  have hne : ¬(code = "" ∨ codeVerifier = "" ∨ clientID = "") := by simp [hc, hv, hcid]
  obtain ⟨hex1, hall1⟩ := ConsumeAuthCode_ok_inv st (hashToken code) now s st1 huniq hcons
  refine ⟨?_, ?_, ?_⟩
  · rw [handleGrant_eq_consume_ok st code codeVerifier clientID redirectURI genA genR now
      s st1 hne hcons]
    by_cases hm1 : s.clientID = clientID
    · by_cases hm2 : s.redirectURI = redirectURI
      · have hm3 : verifyPKCE codeVerifier s.codeChallenge = false := by
          rcases hmis with hm | hm | hm
          · exact absurd hm1 hm
          · exact absurd hm2 hm
          · exact hm
        exact ⟨"PKCE verification failed",
          by rw [if_neg (by simp [hm1]), if_neg (by simp [hm2]), if_pos (by simp [hm3])]⟩
      · exact ⟨"redirect_uri mismatch", by rw [if_neg (by simp [hm1]), if_pos hm2]⟩
    · exact ⟨"client_id mismatch", by rw [if_pos hm1]⟩
  · obtain ⟨q, hqm, hqh⟩ := hex1
    exact ⟨q, hqm, hqh, hall1 q hqm hqh⟩
  · intro cv2 cid2 ru2 gA2 gR2 now2 hcv2 hcid2
    have hne2 : ¬(code = "" ∨ cv2 = "" ∨ cid2 = "") := by simp [hc, hcv2, hcid2]
    have herr := ConsumeAuthCode_already_used st1 (hashToken code) now2 hex1 hall1
    rw [handleGrant_eq_consume_error st1 code cv2 cid2 ru2 gA2 gR2 now2 _ hne2 herr]

/-- Witness for C4: a consumed code presented with the wrong `client_id`. -/
theorem grant_mismatch_consumes_witness :
    (∃ desc, handleAuthorizationCodeGrant
      { sessions := [{ id := 1, state := "gstate", clientID := "client-1",
                       redirectURI := "https://app.example/cb", codeChallenge := "challenge",
                       codeChallengeMethod := "S256", mcpState := some "m",
                       authCodeHash := some (hashToken "rawcode"),
                       userEmail := some "alice@example.com",
                       expiresAt := 600, used := false }],
        tokens := [], users := [], nextTokenID := 1 }
      "rawcode" "verifier" "client-2" "https://app.example/cb" "a1" "r1" 100 =
      (.oauthErr 400 "invalid_grant" desc,
        { sessions := [{ id := 1, state := "gstate", clientID := "client-1",
                         redirectURI := "https://app.example/cb", codeChallenge := "challenge",
                         codeChallengeMethod := "S256", mcpState := some "m",
                         authCodeHash := some (hashToken "rawcode"),
                         userEmail := some "alice@example.com",
                         expiresAt := 600, used := true }],
          tokens := [], users := [], nextTokenID := 1 })) ∧
    (∃ q ∈ ({ sessions := [{ id := 1, state := "gstate", clientID := "client-1",
                             redirectURI := "https://app.example/cb",
                             codeChallenge := "challenge",
                             codeChallengeMethod := "S256", mcpState := some "m",
                             authCodeHash := some (hashToken "rawcode"),
                             userEmail := some "alice@example.com",
                             expiresAt := 600, used := true }],
              tokens := [], users := [], nextTokenID := 1 } : Store).sessions,
      q.authCodeHash = some (hashToken "rawcode") ∧ q.used = true) ∧
    (∀ cv2 cid2 ru2 gA2 gR2 now2, cv2 ≠ "" → cid2 ≠ "" →
      (handleAuthorizationCodeGrant
        { sessions := [{ id := 1, state := "gstate", clientID := "client-1",
                         redirectURI := "https://app.example/cb", codeChallenge := "challenge",
                         codeChallengeMethod := "S256", mcpState := some "m",
                         authCodeHash := some (hashToken "rawcode"),
                         userEmail := some "alice@example.com",
                         expiresAt := 600, used := true }],
          tokens := [], users := [], nextTokenID := 1 }
        "rawcode" cv2 cid2 ru2 gA2 gR2 now2).1 =
        .oauthErr 400 "invalid_grant" "authorization code already used") := by
  exact grant_mismatch_consumes
    { sessions := [{ id := 1, state := "gstate", clientID := "client-1",
                     redirectURI := "https://app.example/cb", codeChallenge := "challenge",
                     codeChallengeMethod := "S256", mcpState := some "m",
                     authCodeHash := some (hashToken "rawcode"),
                     userEmail := some "alice@example.com",
                     expiresAt := 600, used := false }],
      tokens := [], users := [], nextTokenID := 1 }
    "rawcode" "verifier" "client-2" "https://app.example/cb" "a1" "r1" 100
    { id := 1, state := "gstate", clientID := "client-1",
      redirectURI := "https://app.example/cb", codeChallenge := "challenge",
      codeChallengeMethod := "S256", mcpState := some "m",
      authCodeHash := some (hashToken "rawcode"), userEmail := some "alice@example.com",
      expiresAt := 600, used := true }
    { sessions := [{ id := 1, state := "gstate", clientID := "client-1",
                     redirectURI := "https://app.example/cb", codeChallenge := "challenge",
                     codeChallengeMethod := "S256", mcpState := some "m",
                     authCodeHash := some (hashToken "rawcode"),
                     userEmail := some "alice@example.com",
                     expiresAt := 600, used := true }],
      tokens := [], users := [], nextTokenID := 1 }
    (by decide) (by decide) (by decide) (by decide) (by decide)
    (Or.inl (by decide))

/-! ## C5: what resolve (SetAuthSessionCode) actually checks -/

/-- C5 counterexample: a session that is already `REDEEMED` (used, with a
stored code hash, and past its expiry for any positive clock) is resolved
again by `SetAuthSessionCode` — the update succeeds and overwrites the code
hash and subject, rather than failing with the unknown-session error that the
claim requires for every non-`CREATED` session. -/
theorem setAuthSessionCode_overwrites_used_session :
    SetAuthSessionCode
      { sessions := [{ id := 1, state := "s1", clientID := "client-1",
                       redirectURI := "https://app.example/cb", codeChallenge := "challenge",
                       codeChallengeMethod := "S256", mcpState := some "m",
                       authCodeHash := some "oldhash", userEmail := some "alice@example.com",
                       expiresAt := 0, used := true }],
        tokens := [], users := [], nextTokenID := 1 } "s1" "newhash" "bob@example.com" =
      .ok { sessions := [{ id := 1, state := "s1", clientID := "client-1",
                           redirectURI := "https://app.example/cb",
                           codeChallenge := "challenge",
                           codeChallengeMethod := "S256", mcpState := some "m",
                           authCodeHash := some "newhash", userEmail := some "bob@example.com",
                           expiresAt := 0, used := true }],
            tokens := [], users := [], nextTokenID := 1 } := by decide

/-- C5 (amended): `SetAuthSessionCode` fails with the session-not-found error
exactly when no session with the given broker state exists at all; it checks
neither the `used` flag, nor a previously stored code hash, nor expiry, so a
session with a matching state is resolved (and its code hash and subject
overwritten) in any phase — the only other failure mode is a hash-collision
constraint error, excluded here by the no-collision hypothesis. -/
theorem setAuthSessionCode_spec (st : Store) (state h email : String)
    (hcount : st.sessions.countP (fun s => s.state == state) = 1)
    (hnocol : ∀ s ∈ st.sessions, s.state ≠ state → s.authCodeHash ≠ some h) :
    (∃ st', SetAuthSessionCode st state h email = .ok st') ∧
    (∀ (st2 : Store) (state2 h2 e2 : String),
      SetAuthSessionCode st2 state2 h2 e2 = .error "session not found for state" ↔
        ∀ s ∈ st2.sessions, s.state ≠ state2) := by
  constructor
  · have hviol : ¬(0 < st.sessions.countP (fun s => s.state == state) ∧
        (st.sessions.any (fun s => !(s.state == state) && s.authCodeHash == some h) = true ∨
          1 < st.sessions.countP (fun s => s.state == state))) := by
      rintro ⟨-, hbad⟩
      rcases hbad with hbad | hbad
      · rw [List.any_eq_true] at hbad
        obtain ⟨q, hq, hpq⟩ := hbad
        simp only [Bool.and_eq_true, Bool.not_eq_true', beq_eq_false_iff_ne, beq_iff_eq,
          ne_eq] at hpq
        exact hnocol q hq hpq.1 hpq.2
      · omega
    unfold SetAuthSessionCode
    rw [if_neg hviol, if_neg (by omega)]
    exact ⟨_, rfl⟩
  · intro st2 state2 h2 e2
    constructor
    · intro hres s hs
      intro hstate
      have hpos : 0 < st2.sessions.countP (fun s => s.state == state2) :=
        List.countP_pos_iff.mpr ⟨s, hs, by simp [hstate]⟩
      unfold SetAuthSessionCode at hres
      by_cases hviol : 0 < st2.sessions.countP (fun s => s.state == state2) ∧
          (st2.sessions.any (fun s => !(s.state == state2) && s.authCodeHash == some h2) =
            true ∨ 1 < st2.sessions.countP (fun s => s.state == state2))
      · rw [if_pos hviol] at hres
        exact absurd hres (by decide)
      · rw [if_neg hviol, if_neg (by omega)] at hres
        exact Except.noConfusion hres
    · intro hall
      have hzero : st2.sessions.countP (fun s => s.state == state2) = 0 := by
        rw [List.countP_eq_zero]
        intro s hs
        simp [hall s hs]
      unfold SetAuthSessionCode
      rw [if_neg (by rintro ⟨hpos, -⟩; omega), if_pos hzero]

/-- Witness for the amended C5 at the counterexample's store: the `REDEEMED`
session is resolved again successfully. -/
theorem setAuthSessionCode_spec_witness :
    (∃ st', SetAuthSessionCode
      { sessions := [{ id := 1, state := "s1", clientID := "client-1",
                       redirectURI := "https://app.example/cb", codeChallenge := "challenge",
                       codeChallengeMethod := "S256", mcpState := some "m",
                       authCodeHash := some "oldhash", userEmail := some "alice@example.com",
                       expiresAt := 0, used := true }],
        tokens := [], users := [], nextTokenID := 1 } "s1" "newhash" "bob@example.com" =
      .ok st') ∧
    (∀ (st2 : Store) (state2 h2 e2 : String),
      SetAuthSessionCode st2 state2 h2 e2 = .error "session not found for state" ↔
        ∀ s ∈ st2.sessions, s.state ≠ state2) := by
  exact setAuthSessionCode_spec
    { sessions := [{ id := 1, state := "s1", clientID := "client-1",
                     redirectURI := "https://app.example/cb", codeChallenge := "challenge",
                     codeChallengeMethod := "S256", mcpState := some "m",
                     authCodeHash := some "oldhash", userEmail := some "alice@example.com",
                     expiresAt := 0, used := true }],
      tokens := [], users := [], nextTokenID := 1 } "s1" "newhash" "bob@example.com"
    (by decide) (by decide)

/-! ## C7: the bearer resolver -/

/-- C7: the bearer resolver tries broker-issued access-token validation
first and the legacy API-key lookup second, returning the subject bound by
the first branch that matches; when neither matches it produces the single
response `(401, "invalid credentials")`, identical for any two rejected
credentials regardless of which branch rejected them or why — here an
arbitrary pair of failing bearer strings yields equal responses. -/
theorem bearer_resolver_order_uniform (st : Store) (t1 t2 : String) (now : Nat)
    (h1 : t1 ≠ "") (h2 : t2 ≠ "")
    (hv1 : ∃ e, ValidateMCPAccessToken st t1 now = .error e)
    (hu1 : GetUserByAPIKey st t1 = none)
    (hv2 : ∃ e, ValidateMCPAccessToken st t2 now = .error e)
    (hu2 : GetUserByAPIKey st t2 = none) :
    resolveBearer st t1 now = .error (401, "invalid credentials") ∧
    resolveBearer st t2 now = .error (401, "invalid credentials") ∧
    resolveBearer st t1 now = resolveBearer st t2 now ∧
    (∀ t email, t ≠ "" → ValidateMCPAccessToken st t now = .ok email → email ≠ "" →
      resolveBearer st t now = .ok email) ∧
    (∀ t u e, t ≠ "" → ValidateMCPAccessToken st t now = .error e →
      GetUserByAPIKey st t = some u → resolveBearer st t now = .ok u.email) := by
  have fail : ∀ t, t ≠ "" → (∃ e, ValidateMCPAccessToken st t now = .error e) →
      GetUserByAPIKey st t = none →
      resolveBearer st t now = .error (401, "invalid credentials") := by
    rintro t ht ⟨e, hv⟩ hu
    unfold resolveBearer
    rw [if_neg ht]
    simp only [hv, hu]
  have hf1 := fail t1 h1 hv1 hu1
  have hf2 := fail t2 h2 hv2 hu2
  refine ⟨hf1, hf2, hf1.trans hf2.symm, ?_, ?_⟩
  · intro t email ht hv he
    unfold resolveBearer
    rw [if_neg ht]
    simp only [hv]
    rw [if_pos he]
  · intro t u e ht hv hu
    unfold resolveBearer
    rw [if_neg ht]
    simp only [hv, hu]

/-- Witness for C7: an expired broker token and an unknown string receive
identical unauthenticated responses. -/
theorem bearer_resolver_order_uniform_witness :
    resolveBearer
      { sessions := [],
        tokens := [{ id := 1, clientID := "client-1",
                     userEmail := "alice@example.com", accessTokenHash := hashToken "tok1",
                     refreshTokenHash := hashToken "ref1", expiresAt := 10 }],
        users := [], nextTokenID := 2 } "tok1" 5000 =
      .error (401, "invalid credentials") ∧
    resolveBearer
      { sessions := [],
        tokens := [{ id := 1, clientID := "client-1",
                     userEmail := "alice@example.com", accessTokenHash := hashToken "tok1",
                     refreshTokenHash := hashToken "ref1", expiresAt := 10 }],
        users := [], nextTokenID := 2 } "unknown-string" 5000 =
      .error (401, "invalid credentials") ∧
    resolveBearer
      { sessions := [],
        tokens := [{ id := 1, clientID := "client-1",
                     userEmail := "alice@example.com", accessTokenHash := hashToken "tok1",
                     refreshTokenHash := hashToken "ref1", expiresAt := 10 }],
        users := [], nextTokenID := 2 } "tok1" 5000 =
      resolveBearer
        { sessions := [],
          tokens := [{ id := 1, clientID := "client-1",
                       userEmail := "alice@example.com", accessTokenHash := hashToken "tok1",
                       refreshTokenHash := hashToken "ref1", expiresAt := 10 }],
          users := [], nextTokenID := 2 } "unknown-string" 5000 ∧
    (∀ t email, t ≠ "" →
      ValidateMCPAccessToken
        { sessions := [],
          tokens := [{ id := 1, clientID := "client-1",
                       userEmail := "alice@example.com", accessTokenHash := hashToken "tok1",
                       refreshTokenHash := hashToken "ref1", expiresAt := 10 }],
          users := [], nextTokenID := 2 } t 5000 = .ok email → email ≠ "" →
      resolveBearer
        { sessions := [],
          tokens := [{ id := 1, clientID := "client-1",
                       userEmail := "alice@example.com", accessTokenHash := hashToken "tok1",
                       refreshTokenHash := hashToken "ref1", expiresAt := 10 }],
          users := [], nextTokenID := 2 } t 5000 = .ok email) ∧
    (∀ t u e, t ≠ "" →
      ValidateMCPAccessToken
        { sessions := [],
          tokens := [{ id := 1, clientID := "client-1",
                       userEmail := "alice@example.com", accessTokenHash := hashToken "tok1",
                       refreshTokenHash := hashToken "ref1", expiresAt := 10 }],
          users := [], nextTokenID := 2 } t 5000 = .error e →
      GetUserByAPIKey
        { sessions := [],
          tokens := [{ id := 1, clientID := "client-1",
                       userEmail := "alice@example.com", accessTokenHash := hashToken "tok1",
                       refreshTokenHash := hashToken "ref1", expiresAt := 10 }],
          users := [], nextTokenID := 2 } t = some u →
      resolveBearer
        { sessions := [],
          tokens := [{ id := 1, clientID := "client-1",
                       userEmail := "alice@example.com", accessTokenHash := hashToken "tok1",
                       refreshTokenHash := hashToken "ref1", expiresAt := 10 }],
          users := [], nextTokenID := 2 } t 5000 = .ok u.email) := by
  exact bearer_resolver_order_uniform
    { sessions := [],
      tokens := [{ id := 1, clientID := "client-1",
                   userEmail := "alice@example.com", accessTokenHash := hashToken "tok1",
                   refreshTokenHash := hashToken "ref1", expiresAt := 10 }],
      users := [], nextTokenID := 2 } "tok1" "unknown-string" 5000
    (by decide) (by decide)
    ⟨"access token expired", by decide⟩ (by decide)
    ⟨"invalid access token", by decide⟩ (by decide)
